import Mathlib

/-!
Verification development for the csv-graphql-api repository.

The repository loads CSV datasets into a SQLite database and exposes them
through a generated GraphQL schema.  The parts embedded here:

* `src/data/filters.ts` — the in-memory filter engine
  (`applyFilters`, `matchesFieldFilter`, `applyNestedFilters`,
  `hasMatchingRelatedRecord`) evaluating the structured filter language
  with JavaScript semantics;
* `src/data/sql-builder.ts` — the SQL predicate translator
  (`buildSelectQuery`, `buildWhereClause`, `buildFieldConditions`,
  `buildRelationshipQuery`); the repository contains two revisions of
  `buildFieldConditions`, both embedded;
* `src/data/database.ts` — `sanitizeIdentifier` and the evaluation of the
  generated SQL against stored rows (modelled by an explicit SQLite
  evaluation semantics over the generated condition list);
* `src/data/loader.ts` — `inferSchema`;
* `src/schema/generator.ts` (TypeScript revision) and its JavaScript
  revision — the root-query resolver (`createQueryField`) and the
  relationship resolver (`resolveRelationship`).

Modelled value universe: stored SQLite rows hold `NULL`, `INTEGER` and
`TEXT` values (`Val.null`, `Val.int`, `Val.str`).  JavaScript `undefined`
and `null` are identified (the sources treat them alike in every filter
branch).  `REAL` columns, `Date` objects flowing through filters, and the
full JavaScript numeric-string grammar are outside the modelled universe;
the corresponding source branches are noted at each definition.
-/

namespace CsvGraphql

/-- A stored SQLite value: storage classes NULL, INTEGER, TEXT. -/
inductive Val where
  | null : Val
  | int : Int → Val
  | str : String → Val
deriving DecidableEq, Repr

/-- A materialized row: association list from column name to stored value,
in column order.  The internal `_rowid` bookkeeping column is not carried;
tables are kept as lists already in `_rowid` (insertion) order. -/
abbrev Row := List (String × Val)

/-- JavaScript `item[fieldName]`: a missing key yields `undefined`, which the
filter code treats exactly like `null`; both are `Val.null` here. -/
def rowGet (r : Row) (f : String) : Val :=
  match List.lookup f r with
  | some v => v
  | none => Val.null

/-- The operator set of a field filter (`FieldFilter` in `filters.ts` and the
per-field shape of `SQLFilter` in `sql-builder.ts`).  A `none` models a
JavaScript `undefined` (absent) operator; `some Val.null` models an operator
explicitly set to `null`.  The source's `in` operator is called `inArr`
because `in` is a Lean keyword. -/
structure FieldFilter where
  eq : Option Val := none
  ne : Option Val := none
  gt : Option Val := none
  gte : Option Val := none
  lt : Option Val := none
  lte : Option Val := none
  inArr : Option (List Val) := none
  contains : Option String := none
  startsWith : Option String := none
  endsWith : Option String := none
deriving DecidableEq, Repr

/-- A filter object: `Object.entries` order of the field-name → operator-set
mapping. -/
abbrev FilterObject := List (String × FieldFilter)

/-- Models `Object.keys(fieldFilter).length === 0` for a field filter: every
operator absent. -/
def isEmptyFieldFilter (ff : FieldFilter) : Bool :=
  ff.eq.isNone && ff.ne.isNone && ff.gt.isNone && ff.gte.isNone &&
  ff.lt.isNone && ff.lte.isNone && ff.inArr.isNone && ff.contains.isNone &&
  ff.startsWith.isNone && ff.endsWith.isNone

/-! ### JavaScript-semantics helpers (`filters.ts` lines 112–213) -/

/-- JavaScript `ToNumber` on a string restricted to the modelled universe:
trimmed integer literals; the empty/whitespace string is `0`.  Floats,
exponents and hex literals are outside the modelled universe. -/
def jsNumOfString (s : String) : Option Int :=
  let t := s.trim
  if t = "" then some 0 else t.toInt?

/-- JavaScript `ToNumber` on a modelled value (`null → 0`). -/
def jsToNumber : Val → Option Int
  | Val.null => some 0
  | Val.int a => some a
  | Val.str s => jsNumOfString s

/-- UTF-16 code units of a string, for JavaScript string comparison. -/
def utf16Units (s : String) : List Nat :=
  s.data.flatMap fun c =>
    if c.toNat < 0x10000 then [c.toNat]
    else [0xD800 + (c.toNat - 0x10000) / 0x400, 0xDC00 + (c.toNat - 0x10000) % 0x400]

/-- Lexicographic `<` on lists of naturals. -/
def natListLt : List Nat → List Nat → Bool
  | _, [] => false
  | [], _ :: _ => true
  | a :: as, b :: bs => if a < b then true else if b < a then false else natListLt as bs

/-- JavaScript `a < b` on two strings: UTF-16 code-unit lexicographic. -/
def jsStrLt (a b : String) : Bool := natListLt (utf16Units a) (utf16Units b)

/-- JavaScript abstract relational comparison `v < c` on modelled values:
string/string compares code units, any other pair goes through `ToNumber`
(`NaN` makes the comparison false). -/
def jsLtVal (v c : Val) : Bool :=
  match v, c with
  | Val.str a, Val.str b => jsStrLt a b
  | _, _ =>
    match jsToNumber v, jsToNumber c with
    | some a, some b => decide (a < b)
    | _, _ => false

/-- Embeds `isEqual` (`filters.ts:113`): null/undefined equal only to
null/undefined, otherwise strict `===`.  The `Date` branches are outside the
modelled universe. -/
def isEqual (v c : Val) : Bool :=
  match v with
  | Val.null => c == Val.null
  | _ => v == c

/-- Embeds `isGreaterThan` (`filters.ts:134`): null/undefined value never greater;
otherwise JavaScript `value > compareValue`. -/
def isGreaterThan (v c : Val) : Bool :=
  match v with
  | Val.null => false
  | _ => jsLtVal c v

/-- Embeds `isGreaterThanOrEqual` (`filters.ts:149`): literally `isEqual ||
isGreaterThan` in the source. -/
def isGreaterThanOrEqual (v c : Val) : Bool :=
  isEqual v c || isGreaterThan v c

/-- Embeds `isLessThan` (`filters.ts:153`). -/
def isLessThan (v c : Val) : Bool :=
  match v with
  | Val.null => false
  | _ => jsLtVal v c

/-- Embeds `isLessThanOrEqual` (`filters.ts:168`). -/
def isLessThanOrEqual (v c : Val) : Bool :=
  isEqual v c || isLessThan v c

/-- Embeds `isInArray` (`filters.ts:172`): a null/undefined value matches when the
array contains null (or undefined); otherwise `array.includes(value)`
(SameValueZero, which is strict equality on the modelled universe).  The
`Date` branch is outside the modelled universe. -/
def isInArray (v : Val) (arr : List Val) : Bool :=
  match v with
  | Val.null => arr.contains Val.null
  | _ => arr.contains v

/-- JavaScript `String(value)` on modelled values (`null` never reaches the
string helpers: they return early). -/
def jsValToString : Val → String
  | Val.null => "null"
  | Val.int a => toString a
  | Val.str s => s

/-- Contiguous-sublist test on character lists (JavaScript
`String.prototype.includes`). -/
def listInfixB (needle : List Char) : List Char → Bool
  | [] => needle.isPrefixOf []
  | c :: t => if needle.isPrefixOf (c :: t) then true else listInfixB needle t

/-- Embeds `containsString` (`filters.ts:194`). -/
def containsString (v : Val) (s : String) : Bool :=
  match v with
  | Val.null => false
  | _ => listInfixB s.data (jsValToString v).data

/-- Embeds `startsWithString` (`filters.ts:201`). -/
def startsWithString (v : Val) (s : String) : Bool :=
  match v with
  | Val.null => false
  | _ => s.data.isPrefixOf (jsValToString v).data

/-- Embeds `endsWithString` (`filters.ts:208`). -/
def endsWithString (v : Val) (s : String) : Bool :=
  match v with
  | Val.null => false
  | _ => s.data.reverse.isPrefixOf (jsValToString v).data.reverse

/-- The `filter.eq !== undefined` block of `matchesFieldFilter`: vacuously
true when absent. -/
def checkEq (v : Val) : Option Val → Bool
  | none => true
  | some c => isEqual v c

/-- The `filter.ne` block of `matchesFieldFilter`. -/
def checkNe (v : Val) : Option Val → Bool
  | none => true
  | some c => !isEqual v c

/-- The `filter.gt` block of `matchesFieldFilter`. -/
def checkGt (v : Val) : Option Val → Bool
  | none => true
  | some c => isGreaterThan v c

/-- The `filter.gte` block of `matchesFieldFilter`. -/
def checkGte (v : Val) : Option Val → Bool
  | none => true
  | some c => isGreaterThanOrEqual v c

/-- The `filter.lt` block of `matchesFieldFilter`. -/
def checkLt (v : Val) : Option Val → Bool
  | none => true
  | some c => isLessThan v c

/-- The `filter.lte` block of `matchesFieldFilter`. -/
def checkLte (v : Val) : Option Val → Bool
  | none => true
  | some c => isLessThanOrEqual v c

/-- The `filter.in` block of `matchesFieldFilter` (the source also checks
`Array.isArray`, always true on the modelled type). -/
def checkIn (v : Val) : Option (List Val) → Bool
  | none => true
  | some arr => isInArray v arr

/-- The `filter.contains` block of `matchesFieldFilter`. -/
def checkContains (v : Val) : Option String → Bool
  | none => true
  | some s => containsString v s

/-- The `filter.startsWith` block of `matchesFieldFilter`. -/
def checkStartsWith (v : Val) : Option String → Bool
  | none => true
  | some s => startsWithString v s

/-- The `filter.endsWith` block of `matchesFieldFilter`. -/
def checkEndsWith (v : Val) : Option String → Bool
  | none => true
  | some s => endsWithString v s

/-- Embeds `matchesFieldFilter` (`filters.ts:47`): the chain of early returns is a
conjunction of one check per present operator, in source order. -/
def matchesFieldFilter (v : Val) (ff : FieldFilter) : Bool :=
  checkEq v ff.eq && checkNe v ff.ne && checkGt v ff.gt && checkGte v ff.gte &&
  checkLt v ff.lt && checkLte v ff.lte && checkIn v ff.inArr &&
  checkContains v ff.contains && checkStartsWith v ff.startsWith &&
  checkEndsWith v ff.endsWith

/-- Embeds `applyFilters` (`filters.ts:21`): keep the rows for which every
non-empty field filter passes on the row's value at that field. -/
def applyFilters (data : List Row) (filters : FilterObject) : List Row :=
  if filters.isEmpty then data
  else
    data.filter fun item =>
      filters.all fun p =>
        if isEmptyFieldFilter p.2 then true
        else matchesFieldFilter (rowGet item p.1) p.2

/-! ### Identifier sanitization (`database.ts`, `sanitizeIdentifier`) -/

/-- The characters the sanitizer keeps: the regex class `[a-zA-Z0-9_]`
(core `Char.isAlpha`/`Char.isDigit` are exactly the ASCII ranges). -/
def isSafeIdentChar (c : Char) : Bool :=
  c.isAlpha || c.isDigit || c == '_'

/-- The character-level body of `sanitizeIdentifier`: replace every
character outside `[a-zA-Z0-9_]` by `_`; if the result starts with a
digit, prefix `_` (prepending `'_'` to the character list is exactly
`"_" ++ sanitized` on the underlying string). -/
def sanitizeChars (l : List Char) : List Char :=
  match l.map (fun c => if isSafeIdentChar c then c else '_') with
  | [] => []
  | c :: rest => if c.isDigit then '_' :: c :: rest else c :: rest

/-- Embeds `sanitizeIdentifier` (`database.ts`): replace every character outside
`[a-zA-Z0-9_]` by `_`; if the result starts with a digit, prefix `_`. -/
def sanitizeIdentifier (s : String) : String :=
  String.mk (sanitizeChars s.data)

/-! ### The predicate translator (`sql-builder.ts`)

`buildFieldConditions` pushes SQL condition strings plus positional
parameters.  The embedding produces each condition together with its bound
parameters as one `Cond` constructor; `condSqlString` below reproduces the
exact SQL text the source builds, so the pair (AST, renderer) is the
source's (string, params) output. -/

/-- Comparison operators appearing in generated conditions. -/
inductive CmpOp where
  | eqOp | neOp | gtOp | gteOp | ltOp | lteOp
deriving DecidableEq, Repr

/-- One generated SQL condition with its bound parameter values. -/
inductive Cond where
  /-- `F IS NULL` -/
  | isNull (f : String)
  /-- `F IS NOT NULL` -/
  | isNotNull (f : String)
  /-- `F op ?` with one bound parameter -/
  | cmp (op : CmpOp) (f : String) (p : Val)
  /-- `F IN (?, …, ?)` with the listed bound parameters -/
  | inList (f : String) (ps : List Val)
  /-- the impossible condition `1 = 0` -/
  | falseCond
  /-- `F LIKE ?` with the pattern as bound parameter -/
  | like (f : String) (pat : String)
deriving DecidableEq, Repr

/-- Embeds `convertFilterValue` (`sql-builder.ts`): `null`/`undefined` → `NULL`,
other modelled values pass through.  The `Date → toISOString` and
`boolean → 0/1` branches are outside the modelled universe. -/
def convertFilterValue : Val → Val
  | Val.null => Val.null
  | Val.int a => Val.int a
  | Val.str s => Val.str s

/-- The `filter.eq` push of `buildFieldConditions`: `eq: null` becomes
`F IS NULL`, otherwise `F = ?` with the converted value bound. -/
def condsEq (f : String) : Option Val → List Cond
  | none => []
  | some Val.null => [Cond.isNull f]
  | some v => [Cond.cmp CmpOp.eqOp f (convertFilterValue v)]

/-- The `filter.ne` push: `ne: null` becomes `F IS NOT NULL`, otherwise
`F != ?`. -/
def condsNe (f : String) : Option Val → List Cond
  | none => []
  | some Val.null => [Cond.isNotNull f]
  | some v => [Cond.cmp CmpOp.neOp f (convertFilterValue v)]

/-- The push of one ordered-comparison operator: `F op ?`. -/
def condsCmp (op : CmpOp) (f : String) : Option Val → List Cond
  | none => []
  | some v => [Cond.cmp op f (convertFilterValue v)]

/-- The `filter.in` push, first revision: an empty list pushes the
impossible condition `1 = 0`, a nonempty one `F IN (?, …)` over the
converted values. -/
def condsIn (f : String) : Option (List Val) → List Cond
  | none => []
  | some [] => [Cond.falseCond]
  | some vs => [Cond.inList f (vs.map convertFilterValue)]

/-- The `filter.in` push, second revision (`filter.in.length > 0`
required): an empty list contributes no condition. -/
def condsInV2 (f : String) : Option (List Val) → List Cond
  | none => []
  | some [] => []
  | some vs => [Cond.inList f (vs.map convertFilterValue)]

/-- The `filter.contains` push: `F LIKE ?` with pattern `%s%`. -/
def condsContains (f : String) : Option String → List Cond
  | none => []
  | some s => [Cond.like f ("%" ++ s ++ "%")]

/-- The `filter.startsWith` push: `F LIKE ?` with pattern `s%`. -/
def condsStartsWith (f : String) : Option String → List Cond
  | none => []
  | some s => [Cond.like f (s ++ "%")]

/-- The `filter.endsWith` push: `F LIKE ?` with pattern `%s`. -/
def condsEndsWith (f : String) : Option String → List Cond
  | none => []
  | some s => [Cond.like f ("%" ++ s)]

/-- Embeds `buildFieldConditions`, first revision (`sql-builder.ts:111`), on the
modelled universe: operator-declaration order `eq, ne, gt, gte, lt, lte,
in, contains, startsWith, endsWith`.  The `instanceof Date` branches are
outside the modelled universe. -/
def buildFieldConditions (f : String) (ff : FieldFilter) : List Cond :=
  condsEq f ff.eq ++ condsNe f ff.ne ++ condsCmp CmpOp.gtOp f ff.gt ++
  condsCmp CmpOp.gteOp f ff.gte ++ condsCmp CmpOp.ltOp f ff.lt ++
  condsCmp CmpOp.lteOp f ff.lte ++ condsIn f ff.inArr ++
  condsContains f ff.contains ++ condsStartsWith f ff.startsWith ++
  condsEndsWith f ff.endsWith

/-- Embeds `buildFieldConditions`, second revision (`sql-builder.ts:387` of the
concatenated file): identical except that the `in` operator requires
`filter.in.length > 0`, so `in: []` contributes no condition at all. -/
def buildFieldConditionsV2 (f : String) (ff : FieldFilter) : List Cond :=
  condsEq f ff.eq ++ condsNe f ff.ne ++ condsCmp CmpOp.gtOp f ff.gt ++
  condsCmp CmpOp.gteOp f ff.gte ++ condsCmp CmpOp.ltOp f ff.lt ++
  condsCmp CmpOp.lteOp f ff.lte ++ condsInV2 f ff.inArr ++
  condsContains f ff.contains ++ condsStartsWith f ff.startsWith ++
  condsEndsWith f ff.endsWith

/-- Embeds `buildWhereClause` (`sql-builder.ts:90`): each field's conditions (field
name sanitized) are ANDed, and all fields are ANDed; the nested
parenthesized grouping is semantically flat conjunction, so the embedding
returns the flattened condition list. -/
def buildWhereConds (filters : FilterObject) : List Cond :=
  filters.flatMap fun p => buildFieldConditions (sanitizeIdentifier p.1) p.2

/-- Embeds `buildWhereClause` using the second revision of `buildFieldConditions`. -/
def buildWhereCondsV2 (filters : FilterObject) : List Cond :=
  filters.flatMap fun p => buildFieldConditionsV2 (sanitizeIdentifier p.1) p.2

/-! ### SQLite evaluation of the generated conditions

The generated SQL runs against the SQLite tables the loader created.  The
evaluation semantics on the modelled universe: a comparison involving
`NULL` is `NULL`, which a `WHERE` clause treats as not-matching; values of
different storage classes are never equal and order as INTEGER < TEXT;
TEXT compares bytewise under the BINARY collation (UTF-8 byte order, which
is code-point order); `LIKE` is case-insensitive on ASCII letters.
Column-affinity conversion of bound parameters is not modelled: every
theorem below compares values of equal storage class, for which the
conversion is the identity. -/

/-- Code-point lexicographic `<` on strings: the order of SQLite's BINARY
collation (bytewise UTF-8 comparison). -/
def sqliteStrLt (a b : String) : Bool :=
  natListLt (a.data.map Char.toNat) (b.data.map Char.toNat)

/-- SQLite equality of two non-`NULL`-semantics values; any `NULL` operand
makes the comparison not-true, and distinct storage classes are unequal. -/
def sqliteEqVal (v p : Val) : Bool :=
  match v, p with
  | Val.int a, Val.int b => a == b
  | Val.str a, Val.str b => a == b
  | _, _ => false

/-- SQLite `<`: `NULL` makes it not-true; INTEGER < TEXT across storage
classes; within a class, numeric or BINARY-collation order. -/
def sqliteLtVal (v p : Val) : Bool :=
  match v, p with
  | Val.int a, Val.int b => decide (a < b)
  | Val.str a, Val.str b => sqliteStrLt a b
  | Val.int _, Val.str _ => true
  | _, _ => false

/-- SQLite evaluation of one generated comparison `v op p` (true/not-true;
`NULL` results count as not-true under `WHERE`). -/
def sqliteCmp (op : CmpOp) (v p : Val) : Bool :=
  match op with
  | CmpOp.eqOp => sqliteEqVal v p
  | CmpOp.neOp =>
    if v == Val.null || p == Val.null then false else !sqliteEqVal v p
  | CmpOp.gtOp => sqliteLtVal p v
  | CmpOp.gteOp => sqliteEqVal v p || sqliteLtVal p v
  | CmpOp.ltOp => sqliteLtVal v p
  | CmpOp.lteOp => sqliteEqVal v p || sqliteLtVal v p

/-- ASCII-lowercasing used by SQLite's default `LIKE`. -/
def likeLowerEq (p c : Char) : Bool := p.toLower == c.toLower

/-- SQLite `LIKE` pattern matching (`%` any run, `_` one character,
case-insensitive on ASCII letters). -/
def likeMatch : List Char → List Char → Bool
  | [], [] => true
  | [], _ :: _ => false
  | p :: ps, s =>
    if p = '%' then
      likeMatch ps s ||
        (match s with
         | [] => false
         | _ :: t => likeMatch (p :: ps) t)
    else
      match s with
      | [] => false
      | c :: t => (p = '_' || likeLowerEq p c) && likeMatch ps t
termination_by pat s => (pat.length, s.length)

/-- SQLite text rendering of a stored value, as `LIKE` sees it. -/
def sqlValToText : Val → String
  | Val.null => ""
  | Val.int a => toString a
  | Val.str s => s

/-- Evaluation of one generated condition against a stored row. -/
def evalCond (row : Row) : Cond → Bool
  | Cond.isNull f => rowGet row f == Val.null
  | Cond.isNotNull f => !(rowGet row f == Val.null)
  | Cond.cmp op f p => sqliteCmp op (rowGet row f) p
  | Cond.inList f ps =>
    let v := rowGet row f
    if v == Val.null then false else ps.any fun p => sqliteEqVal v p
  | Cond.falseCond => false
  | Cond.like f pat =>
    let v := rowGet row f
    if v == Val.null then false else likeMatch pat.data (sqlValToText v).data

/-- Evaluation of the whole generated `WHERE` clause (first revision). -/
def evalWhere (filters : FilterObject) (row : Row) : Bool :=
  (buildWhereConds filters).all (evalCond row)

/-- Executing `buildSelectQuery(table, filters)` without pagination against
the stored rows: `WHERE` filtering of the table, `ORDER BY _rowid` being
the insertion order the table list is already in. -/
def sqlSelectRows (table : List Row) (filters : FilterObject) : List Row :=
  table.filter (evalWhere filters)

/-- The same select with the second revision of `buildFieldConditions`. -/
def sqlSelectRowsV2 (table : List Row) (filters : FilterObject) : List Row :=
  table.filter fun row => (buildWhereCondsV2 filters).all (evalCond row)

/-- Executing `buildSelectQuery` with pagination `{offset, limit}` (both
set, non-negative): SQLite applies `OFFSET` then `LIMIT` after the
`ORDER BY`. -/
def sqlSelectPaged (table : List Row) (filters : FilterObject)
    (offset limit : Nat) : List Row :=
  ((sqlSelectRows table filters).drop offset).take limit

/-! ### Relationships and nested filtering
(`schema/types.ts`, `filters.ts:237–350`, `schema/generator.ts`) -/

/-- Relationship cardinality (`type: 'one-to-one' | 'one-to-many'`). -/
inductive RelType where
  | oneToOne | oneToMany
deriving DecidableEq, Repr

/-- A declared relationship (`Relationship` in `schema/types.ts`): local
`field`, target dataset `references`, target field `referenceField`.  The
source's `type` property is called `relType`. -/
structure Relationship where
  field : String
  references : String
  referenceField : String
  relType : RelType
deriving DecidableEq, Repr

/-- JavaScript `s.charAt(0).toLowerCase() + s.slice(1)`. -/
def lowerFirst (s : String) : String :=
  match s.data with
  | [] => ""
  | c :: t => String.mk (c.toLower :: t)

/-- JavaScript `baseName.endsWith('s')` for the single character `s`: the
last character is `s`. -/
def endsInS (s : String) : Bool :=
  match s.data.getLast? with
  | some c => c == 's'
  | none => false

/-- Embeds `getRelationshipFieldName` (`filters.ts:343` and `generator.ts:411`):
lower-case the first character of the target dataset name; pluralize for
one-to-many unless the name already ends in `s`. -/
def getRelationshipFieldName (rel : Relationship) : String :=
  let baseName := lowerFirst rel.references
  match rel.relType with
  | RelType.oneToMany => if endsInS baseName then baseName else baseName ++ "s"
  | RelType.oneToOne => baseName

/-- A nested filter expression against the target dataset: field-level
operator sets only (the source applies `matchesFieldFilter` per field of
the related record, with no deeper relationship hop). -/
abbrev RelFilter := List (String × FieldFilter)

/-- A value of a top-level filter entry: either a plain operator set or a
nested relationship filter.  In the source both are untyped objects; which
reading applies is decided by whether the key names a relationship. -/
inductive TopVal where
  | plain (ff : FieldFilter)
  | rel (rf : RelFilter)
deriving DecidableEq, Repr

/-- A top-level filter: `Object.entries` of the GraphQL `filter` argument. -/
abbrev TopFilter := List (String × TopVal)

/-- Models `Object.keys(filterValue).length === 0` on a top-level filter value. -/
def isEmptyTopVal : TopVal → Bool
  | TopVal.plain ff => isEmptyFieldFilter ff
  | TopVal.rel rf => rf.isEmpty

/-- Reading a top-level value as a plain operator set, as the SQL builder
and `matchesFieldFilter` do: a nested filter object has none of the ten
operator properties, so it reads as the empty operator set. -/
def fieldFilterOf : TopVal → FieldFilter
  | TopVal.plain ff => ff
  | TopVal.rel _ => {}

/-- Reading a top-level value as a nested relationship filter, as
`hasMatchingRelatedRecord` does; a plain operator set has no field-named
properties, so it reads as the empty nested filter. -/
def relFilterOf : TopVal → RelFilter
  | TopVal.plain _ => []
  | TopVal.rel rf => rf

/-- The row-source query capability as the nested-filter code uses it:
given the (sanitized) target table name, (sanitized) target field name and
the parent's value, return the rows of the target table whose field equals
the value — or fail (`database.query` throwing). -/
def DbQuery := String → String → Val → Except String (List Row)

/-- Satisfaction of a nested relationship filter by one related record:
the inner loop of `hasMatchingRelatedRecord` (`filters.ts:319–332`) —
every non-empty field filter must pass. -/
def relFilterMatches (rf : RelFilter) (r : Row) : Bool :=
  rf.all fun p =>
    if isEmptyFieldFilter p.2 then true
    else matchesFieldFilter (rowGet r p.1) p.2

/-- Embeds `hasMatchingRelatedRecord` (`filters.ts:295`): a null/undefined parent
value never matches; the related records are fetched with
`SELECT * FROM ⟨references⟩ WHERE ⟨referenceField⟩ = ?`; a query error is
caught and yields `false`; otherwise some related record must satisfy the
nested filter. -/
def hasMatchingRelatedRecord (db : DbQuery) (parentRecord : Row)
    (rel : Relationship) (relationshipFilter : RelFilter) : Bool :=
  let parentValue := rowGet parentRecord rel.field
  if parentValue == Val.null then false
  else
    match db (sanitizeIdentifier rel.references) (sanitizeIdentifier rel.referenceField) parentValue with
    | Except.error _ => false
    | Except.ok relatedRecords =>
      if relatedRecords.isEmpty then false
      else relatedRecords.any (relFilterMatches relationshipFilter)

/-- Embeds `applyNestedFilters` (`filters.ts:237`): entries with empty values are
skipped; keys naming a relationship's derived field name are evaluated
existentially through `hasMatchingRelatedRecord`, the rest as plain field
filters; a row must pass all of them. -/
def applyNestedFilters (data : List Row) (filters : Option TopFilter)
    (relationships : List Relationship) (db : DbQuery) : List Row :=
  match filters with
  | none => data
  | some fs =>
    if fs.isEmpty then data
    else
      let relationshipFieldMap := relationships.map fun r => (getRelationshipFieldName r, r)
      data.filter fun item =>
        fs.all fun p =>
          if isEmptyTopVal p.2 then true
          else
            match List.lookup p.1 relationshipFieldMap with
            | some rel => hasMatchingRelatedRecord db item rel (relFilterOf p.2)
            | none => matchesFieldFilter (rowGet item p.1) (fieldFilterOf p.2)

/-! ### The relationship resolver (`generator.ts:321`, `resolveRelationship`)

`resolveRelationship` passes `filter` and a clamped `pagination` as seventh
and eighth arguments to `buildRelationshipQuery`, but both revisions of
`buildRelationshipQuery` (`sql-builder.ts:255` and `:474`) declare only six
parameters, so the generated query is always
`SELECT * FROM ⟨references⟩ WHERE ⟨referenceField⟩ = ? ORDER BY _rowid`
(plus `LIMIT 1` for one-to-one): the nested filter and the offset/limit are
never applied to the lookup. -/

/-- GraphQL pagination argument `{offset?, limit?}`. -/
structure Pagination where
  offset : Option Int := none
  limit : Option Int := none
deriving DecidableEq, Repr

/-- Executing `buildRelationshipQuery`'s SQL against the stored target
table: the rows whose (sanitized) target field equals the parent value, in
`_rowid` order, truncated to one row for one-to-one. -/
def relQueryRows (targetTable : List Row) (toField : String) (v : Val)
    (isOneToMany : Bool) : List Row :=
  let rows := targetTable.filter fun r => sqliteEqVal (rowGet r (sanitizeIdentifier toField)) v
  if isOneToMany then rows else rows.take 1

/-- The union result type of `resolveRelationship`:
`null`, a single row, or a row array. -/
inductive ResolveResult where
  | nullRes
  | row (r : Row)
  | rows (rs : List Row)
deriving DecidableEq, Repr

/-- The clamped offset computed by `resolveRelationship` for one-to-many:
`Math.max(pagination?.offset ?? 0, 0)`. -/
def relEffOffset (pag : Option Pagination) : Int :=
  max ((pag.bind Pagination.offset).getD 0) 0

/-- The clamped limit computed by `resolveRelationship` for one-to-many:
`Math.min(Math.max(limit, 0), 1000)` when provided, else `100`. -/
def relEffLimit (pag : Option Pagination) : Int :=
  match pag.bind Pagination.limit with
  | some l => min (max l 0) 1000
  | none => 100

/-- Embeds `resolveRelationship` (`generator.ts:321`; the JavaScript revision in
the repository is identical here).  `src` is the row source holding the
target table (`database.query` on the built relationship query; an error
propagates — the resolver has no catch).  The computed `offset`/`limit`
are only consulted for the `limit === 0` short-circuit; otherwise they are
passed to the six-parameter `buildRelationshipQuery` which ignores them,
as it ignores `fil`. -/
def resolveRelationship (parent : Row) (rel : Relationship)
    (fil : Option RelFilter) (pag : Option Pagination)
    (src : Except String (List Row)) : Except String ResolveResult :=
  let parentValue := rowGet parent rel.field
  if parentValue == Val.null then Except.ok ResolveResult.nullRes
  else
    match rel.relType with
    | RelType.oneToOne =>
      match src with
      | Except.error e => Except.error e
      | Except.ok targetTable =>
        match relQueryRows targetTable rel.referenceField parentValue false with
        | [] => Except.ok ResolveResult.nullRes
        | r :: _ => Except.ok (ResolveResult.row r)
    | RelType.oneToMany =>
      let _offset := relEffOffset pag
      let limit := relEffLimit pag
      if limit == 0 then Except.ok (ResolveResult.rows [])
      else
        match src with
        | Except.error e => Except.error e
        | Except.ok targetTable =>
          Except.ok (ResolveResult.rows (relQueryRows targetTable rel.referenceField parentValue true))

/-! ### The root-query orchestrator (`createQueryField` resolve)

Two revisions exist: the TypeScript one (`generator.ts:254–318`) with no
try/catch — a row-source error propagates — and the JavaScript one
(`unnamed/part_004:248–329`) which catches errors on both strategy paths
and substitutes `items: []`, `totalCount: 0`. -/

/-- The Result Envelope `{items, totalCount, offset, limit}`. -/
structure Envelope where
  items : List Row
  totalCount : Int
  offset : Int
  limit : Int
deriving DecidableEq, Repr

/-- Embeds `hasRelationshipFilters` (`generator.ts:427`): false without filters or
relationships; otherwise some top-level filter key equals a derived
relationship field name. -/
def hasRelationshipFilters (filters : Option TopFilter)
    (relationships : List Relationship) : Bool :=
  match filters with
  | none => false
  | some fs =>
    if relationships.isEmpty then false
    else fs.any fun p => (relationships.map getRelationshipFieldName).contains p.1

/-- The root resolver's offset: `args.pagination?.offset || 0`.  The `||`
replaces only the falsy values `0` (and absence) by `0`, so on modelled
integers it is `getD 0`; negative offsets pass through unclamped. -/
def rootEffOffset (pag : Option Pagination) : Int :=
  (pag.bind Pagination.offset).getD 0

/-- The root resolver's limit:
`Math.min(args.pagination?.limit || 100, 1000)`.  The `||` turns an
explicit `0` (falsy) into the default `100`; negative limits pass through
unclamped. -/
def rootEffLimit (pag : Option Pagination) : Int :=
  min (match pag.bind Pagination.limit with
       | some l => if l == 0 then 100 else l
       | none => 100) 1000

/-- JavaScript `Array.prototype.slice(start, stop)` on modelled lists:
negative indices count from the end, both are clamped into `[0, length]`. -/
def jsSlice (l : List Row) (start stop : Int) : List Row :=
  let len : Int := l.length
  let s := if start < 0 then max (len + start) 0 else min start len
  let e := if stop < 0 then max (len + stop) 0 else min stop len
  (l.drop s.toNat).take (e - s).toNat

/-- SQLite execution of the select with `LIMIT ? OFFSET ?` where the bound
values may be negative: a negative `OFFSET` reads as 0 (`Int.toNat` clamps)
and a negative `LIMIT` means no limit. -/
def sqlitePage (rows : List Row) (offset limit : Int) : List Row :=
  let afterOffset := rows.drop offset.toNat
  if limit < 0 then afterOffset else afterOffset.take limit.toNat

/-- The root query resolver, TypeScript revision (`generator.ts:254–318`).
`src` is the row source for the dataset's table (used by both the count
query and the select query); `db` serves the nested-filter lookups.  The
memory path slices the filtered rows with JavaScript `slice`; the SQL path
delegates `WHERE`/`LIMIT`/`OFFSET` to the storage engine.  No error is
caught: a failing row source fails the whole resolve.  (The
missing-schema early return is not modelled; the schema is assumed
present.) -/
def rootQueryTS (db : DbQuery) (src : Except String (List Row))
    (csvName : String) (relationships : List Relationship)
    (filter : Option TopFilter) (pag : Option Pagination) :
    Except String Envelope :=
  let offset := rootEffOffset pag
  let limit := rootEffLimit pag
  if hasRelationshipFilters filter relationships then
    match src with
    | Except.error e => Except.error e
    | Except.ok allData =>
      let filteredData := applyNestedFilters allData filter relationships db
      let totalCount : Int := filteredData.length
      let items := jsSlice filteredData offset (offset + limit)
      Except.ok ⟨items, totalCount, offset, limit⟩
  else
    match src with
    | Except.error e => Except.error e
    | Except.ok tableRows =>
      let sqlFilter : FilterObject :=
        (filter.getD []).map fun p => (p.1, fieldFilterOf p.2)
      let filtered := sqlSelectRows tableRows sqlFilter
      let totalCount : Int := filtered.length
      let items := sqlitePage filtered offset limit
      Except.ok ⟨items, totalCount, offset, limit⟩

/-- The root query resolver, JavaScript revision
(`unnamed/part_004:248–329`): identical strategy and pagination
computation, but each path is wrapped in try/catch — a row-source error is
logged and replaced by `items = []`, `totalCount = 0`, and the envelope is
still returned with the computed offset and limit. -/
def rootQueryJS (db : DbQuery) (src : Except String (List Row))
    (csvName : String) (relationships : List Relationship)
    (filter : Option TopFilter) (pag : Option Pagination) : Envelope :=
  let offset := rootEffOffset pag
  let limit := rootEffLimit pag
  if hasRelationshipFilters filter relationships then
    match src with
    | Except.error _ => ⟨[], 0, offset, limit⟩
    | Except.ok allData =>
      let filteredData := applyNestedFilters allData filter relationships db
      let totalCount : Int := filteredData.length
      let items := jsSlice filteredData offset (offset + limit)
      ⟨items, totalCount, offset, limit⟩
  else
    match src with
    | Except.error _ => ⟨[], 0, offset, limit⟩
    | Except.ok tableRows =>
      let sqlFilter : FilterObject :=
        (filter.getD []).map fun p => (p.1, fieldFilterOf p.2)
      let filtered := sqlSelectRows tableRows sqlFilter
      let totalCount : Int := filtered.length
      let items := sqlitePage filtered offset limit
      ⟨items, totalCount, offset, limit⟩

/-- The concrete row-source semantics used when the database is healthy:
look the target table up by name and run the relationship lookup's
`WHERE field = ?`. -/
def tableQuery (tables : List (String × List Row)) : DbQuery :=
  fun t f v =>
    Except.ok (((List.lookup t tables).getD []).filter fun r => sqliteEqVal (rowGet r f) v)

/-! ### Schema inference (`loader.ts:102`, `inferSchema`) -/

/-- A field descriptor (`FieldMetadata` in `schema/types.ts`): name,
optional declared scalar type, optional description.  The source's `type`
property is called `ftype`. -/
structure FieldMetadata where
  name : String
  ftype : Option String := none
  description : Option String := none
deriving DecidableEq, Repr

/-- The metadata lookup map of `inferSchema`: built with `Map.set` per
declared field, so the last declaration of a name wins. -/
def metaLookup (metadata : List FieldMetadata) (c : String) : Option FieldMetadata :=
  metadata.reverse.find? fun m => m.name == c

/-- Models `existingMetadata.type || 'String'`: absent or empty-string (falsy)
declared types default to `String`. -/
def metaTypeOrString (t : Option String) : String :=
  match t with
  | some s => if s = "" then "String" else s
  | none => "String"

/-- Embeds `inferSchema` (`loader.ts:102`): with no sample rows, return the
declared metadata as-is (or `[]`); otherwise one descriptor per first-row
column, in first-row order, taking type and description from a
metadata declaration of the same name and defaulting the type to
`String`.  A row is its own ordered column list, so `Object.keys(firstRow)`
is `firstRow.map Prod.fst`. -/
def inferSchema (data : List Row) (metadata : Option (List FieldMetadata)) :
    List FieldMetadata :=
  match data with
  | [] => metadata.getD []
  | firstRow :: _ =>
    let columns := firstRow.map Prod.fst
    columns.map fun c =>
      match metaLookup (metadata.getD []) c with
      | some m => ⟨c, some (metaTypeOrString m.ftype), m.description⟩
      | none => ⟨c, some "String", none⟩

/-! ### SQL text generation (`sql-builder.ts`, exact strings)

For the identifier-sanitization claim the generated SQL is modelled at the
string level, reproducing the source's interpolations character for
character (parameters stay `?` placeholders). -/

/-- The condition strings `buildFieldConditions` pushes, first revision,
in source order. -/
def condStrings (f : String) (ff : FieldFilter) : List String :=
  (match ff.eq with
   | none => []
   | some Val.null => [f ++ " IS NULL"]
   | some _ => [f ++ " = ?"]) ++
  (match ff.ne with
   | none => []
   | some Val.null => [f ++ " IS NOT NULL"]
   | some _ => [f ++ " != ?"]) ++
  (match ff.gt with | none => [] | some _ => [f ++ " > ?"]) ++
  (match ff.gte with | none => [] | some _ => [f ++ " >= ?"]) ++
  (match ff.lt with | none => [] | some _ => [f ++ " < ?"]) ++
  (match ff.lte with | none => [] | some _ => [f ++ " <= ?"]) ++
  (match ff.inArr with
   | none => []
   | some [] => ["1 = 0"]
   | some vs => [f ++ " IN (" ++ String.intercalate ", " (vs.map fun _ => "?") ++ ")"]) ++
  (match ff.contains with | none => [] | some _ => [f ++ " LIKE ?"]) ++
  (match ff.startsWith with | none => [] | some _ => [f ++ " LIKE ?"]) ++
  (match ff.endsWith with | none => [] | some _ => [f ++ " LIKE ?"])

/-- Renders `buildWhereClause` (`sql-builder.ts:90`) as a string: field names pass
through `sanitizeIdentifier`, each field's conditions are parenthesized and
joined with `AND`, empty condition lists are skipped. -/
def buildWhereClauseSql (filters : FilterObject) : String :=
  if filters.isEmpty then ""
  else
    String.intercalate " AND " <|
      filters.filterMap fun p =>
        let cs := condStrings (sanitizeIdentifier p.1) p.2
        if cs.isEmpty then none
        else some ("(" ++ String.intercalate " AND " cs ++ ")")

/-- The `{offset?, limit?}` argument of `buildSelectQuery`
(`SQLPagination`). -/
structure SQLPagination where
  offset : Option Int := none
  limit : Option Int := none
deriving DecidableEq, Repr

/-- Renders `buildSelectQuery` (`sql-builder.ts:31`) as the exact SQL string: the
table name and every projected field pass through `sanitizeIdentifier`,
then `WHERE`, `ORDER BY _rowid`, and `LIMIT ?`/`OFFSET ?` placeholders. -/
def buildSelectQuerySql (tableName : String) (filters : Option FilterObject)
    (pagination : Option SQLPagination) (fields : Option (List String)) : String :=
  let safeTableName := sanitizeIdentifier tableName
  let selectCols :=
    match fields with
    | some fs =>
      if fs.isEmpty then "*"
      else String.intercalate ", " (fs.map sanitizeIdentifier)
    | none => "*"
  let base := "SELECT " ++ selectCols ++ " FROM " ++ safeTableName
  let whereConditions :=
    match filters with
    | none => ""
    | some fs => buildWhereClauseSql fs
  let withWhere := if whereConditions = "" then base else base ++ " WHERE " ++ whereConditions
  let ordered := withWhere ++ " ORDER BY _rowid"
  match pagination with
  | none => ordered
  | some p =>
    (ordered ++ (if p.limit.isSome then " LIMIT ?" else "")) ++
      (if p.offset.isSome then " OFFSET ?" else "")

/-- Renders `buildRelationshipQuery` (`sql-builder.ts:255`) as the exact SQL string
after `.trim()`: all four identifiers are sanitized (the from-table and
from-field are computed but unused, as in the source). -/
def buildRelationshipQuerySql (fromTable fromField toTable toField : String)
    (isOneToMany : Bool) : String :=
  let _safeFromTable := sanitizeIdentifier fromTable
  let _safeFromField := sanitizeIdentifier fromField
  let safeToTable := sanitizeIdentifier toTable
  let safeToField := sanitizeIdentifier toField
  let base := "SELECT * FROM " ++ safeToTable ++ "\n      WHERE " ++ safeToField ++
    " = ?\n      ORDER BY _rowid"
  if isOneToMany then base else base ++ "\n      LIMIT 1"

/-! ### The fragment on which SQL pushdown and in-memory filtering agree

The two evaluation strategies genuinely diverge on: `ne` against a null
stored value (SQL three-valued logic excludes the row, JavaScript keeps
it), ordered comparisons with null or mixed-storage-class operands
(JavaScript coerces through `ToNumber`, SQLite orders storage classes),
`in` lists containing `null` matched against a null value, and the string
pattern operators (SQLite `LIKE` is ASCII case-insensitive and treats
`%`/`_` as wildcards; `String.prototype.includes` is exact).
`compatibleB` carves out the complement: the fragment where the claimed
equivalence does hold. -/

/-- Both values are integers (one storage class, one JavaScript type). -/
def intPairB : Val → Val → Bool
  | Val.int _, Val.int _ => true
  | _, _ => false

/-- An `ne` operand that avoids the null divergence: either absent, null
itself (both paths test `IS NOT NULL`), or matched against a non-null
stored value. -/
def neCompat (v : Val) : Option Val → Bool
  | none => true
  | some Val.null => true
  | some _ => !(v == Val.null)

/-- An ordered-comparison operand that avoids coercion divergences:
absent, or an integer compared with an integer stored value. -/
def cmpCompat (v : Val) : Option Val → Bool
  | none => true
  | some c => intPairB v c

/-- An `in` operand list that avoids the null divergence: absent, or not
containing null, or matched against a non-null stored value. -/
def inCompat (v : Val) : Option (List Val) → Bool
  | none => true
  | some vs => !(v == Val.null) || !(vs.contains Val.null)

/-- The stored value `v` and the operator set `ff` avoid every divergence
between the SQL and in-memory evaluations: no string pattern operators,
no `ne` against a non-null operand on a null value, ordered comparisons
only between integers, and no `in` list containing null matched against a
null value. -/
def compatibleB (v : Val) (ff : FieldFilter) : Bool :=
  ff.contains.isNone && ff.startsWith.isNone && ff.endsWith.isNone &&
  neCompat v ff.ne && cmpCompat v ff.gt && cmpCompat v ff.gte &&
  cmpCompat v ff.lt && cmpCompat v ff.lte && inCompat v ff.inArr

/-! ## Theorems -/

/-- Ten related rows for user 1, in insertion order. -/
def tenRelatedRows : List Row :=
  (List.range 10).map fun k => [("user_id", Val.int 1), ("n", Val.int k)]

/-- A two-row table used in the pagination counterexamples. -/
def twoRowTable : List Row := [[("a", Val.int 1)], [("a", Val.int 2)]]

/-- C9: for a fixed filter, the select with `{offset: 0, limit: N}`
concatenated with the select with `{offset: N, limit: M}` equals the select
with `{offset: 0, limit: N+M}`; results are deterministically ordered by
the internal `_rowid` sequence (the table's insertion order). -/
theorem c9_pagination_concat (table : List Row) (filters : FilterObject)
    (N M : Nat) :
    sqlSelectPaged table filters 0 N ++ sqlSelectPaged table filters N M =
      sqlSelectPaged table filters 0 (N + M) := by
  simp only [sqlSelectPaged, List.drop_zero]
  exact (List.take_add _ _ _).symm

/-- C2: evaluating `resolveRelationship` on a one-to-many relationship with
10 related rows and `pagination: {offset: -5, limit: 3}` returns all 10
related rows — `buildRelationshipQuery` has no filter/pagination
parameters, so the claimed slice to the first 3 rows never happens. -/
theorem c2_relationship_ignores_pagination :
    resolveRelationship [("id", Val.int 1)]
        ⟨"id", "Order", "user_id", RelType.oneToMany⟩
        none (some ⟨some (-5), some 3⟩) (Except.ok tenRelatedRows) =
      Except.ok (ResolveResult.rows tenRelatedRows) ∧
    tenRelatedRows.length = 10 := by
  constructor <;> rfl

/-- C4, counterexample: with the second revision of `buildFieldConditions`
(`sql-builder.ts:432`), the filter `{F: {in: []}}` contributes no SQL
condition at all, so the SQL-pushdown path returns every row instead of
zero rows. -/
theorem c4_counterexample :
    sqlSelectRowsV2 [[("F", Val.int 1)]] [("F", {inArr := some []})] =
      [[("F", Val.int 1)]] ∧
    ([[("F", Val.int 1)]] : List Row) ≠ [] := by
  constructor
  · rfl
  · intro h
    cases h

/-- C4, amended: `{F: {in: []}}` returns zero rows on the in-memory path
and on the first revision of the SQL builder (which emits the impossible
condition `1 = 0`), for every dataset contents. -/
theorem c4_empty_in_matches_nothing (table : List Row) (F : String) :
    applyFilters table [(F, {inArr := some []})] = [] ∧
    sqlSelectRows table [(F, {inArr := some []})] = [] := by
  constructor
  · simp only [applyFilters, List.isEmpty_cons, Bool.false_eq_true, if_false,
      List.filter_eq_nil_iff]
    intro row _hrow
    simp only [List.all_cons, List.all_nil, Bool.and_true]
    have hne : isEmptyFieldFilter {inArr := some []} = false := by rfl
    rw [hne]
    simp only [Bool.false_eq_true, if_false, matchesFieldFilter]
    cases rowGet row F <;> simp [checkEq, checkNe, checkGt, checkGte, checkLt,
      checkLte, checkIn, checkContains, checkStartsWith, checkEndsWith, isInArray]
  · simp only [sqlSelectRows, List.filter_eq_nil_iff]
    intro row _hrow
    have h : buildWhereConds [(F, {inArr := some []})] = [Cond.falseCond] := by rfl
    simp [evalWhere, h, evalCond]

/-- C3, counterexample: the root query resolver computes
`args.pagination?.limit || 100`, so an explicit `limit: 0` is falsy and
becomes the default 100 — the row source is consulted and the full two-row
table is returned, not an empty items list. -/
theorem c3_counterexample :
    rootQueryTS (tableQuery []) (Except.ok twoRowTable) "T" [] none
        (some ⟨some 0, some 0⟩) =
      Except.ok ⟨twoRowTable, 2, 0, 100⟩ ∧
    twoRowTable ≠ [] := by
  constructor
  · rfl
  · intro h
    cases h

/-- C3, amended: an explicit `limit: 0` short-circuits to an empty items
result without invoking the row source only on the one-to-many
relationship traversal (the result is `[]` for every row source, even a
failing one, whenever the parent's local value is non-null); the root
query instead treats `limit: 0` as unset and behaves exactly like
`limit: 100`. -/
theorem c3_limit_zero (parent : Row) (rel : Relationship)
    (fil : Option RelFilter) (pag : Option Pagination)
    (src : Except String (List Row))
    (hmany : rel.relType = RelType.oneToMany)
    (hlimit : pag.bind Pagination.limit = some 0)
    (hparent : rowGet parent rel.field ≠ Val.null) :
    resolveRelationship parent rel fil pag src =
      Except.ok (ResolveResult.rows []) ∧
    (∀ (db : DbQuery) (src' : Except String (List Row)) (csvName : String)
        (rels : List Relationship) (filter : Option TopFilter) (o : Option Int),
      rootQueryTS db src' csvName rels filter (some ⟨o, some 0⟩) =
        rootQueryTS db src' csvName rels filter (some ⟨o, some 100⟩)) := by
  constructor
  · have hbeq : (rowGet parent rel.field == Val.null) = false := by
      simpa using hparent
    have hlim : relEffLimit pag = 0 := by
      simp [relEffLimit, hlimit]
    simp [resolveRelationship, hbeq, hmany, hlim]
  · intro db src' csvName rels filter o
    rfl

/-- C7, counterexample: the root query does not clamp limits into
`[0, 1000]`: `pagination: {offset: 0, limit: -5}` reaches the storage
engine as `LIMIT -5` (no limit), so the full two-row table is returned and
the envelope carries `limit: -5`; under the claimed clamping the effective
limit would be `min (max (-5) 0) 1000 = 0` and `items` would be empty. -/
theorem c7_counterexample :
    rootQueryTS (tableQuery []) (Except.ok twoRowTable) "T" [] none
        (some ⟨some 0, some (-5)⟩) =
      Except.ok ⟨twoRowTable, 2, 0, -5⟩ ∧
    twoRowTable.length = 2 ∧ min (max (-5 : Int) 0) 1000 = 0 := by
  refine ⟨rfl, rfl, rfl⟩

/-- C7, amended: the one-to-many relationship resolver computes the
effective pagination exactly as claimed — offset clamped to `≥ 0`
(default 0), limit clamped into `[0, 1000]` (default 100 when unset) —
but the root query performs no clamping: the given offset passes through
unchanged (negative included; the storage engine's `OFFSET` treats it as
0), and the given limit is `min l 1000` for any `l ≠ 0` (negative
included, meaning "no limit"), while `0` and unset both become 100. -/
theorem c7_effective_pagination :
    (∀ pag : Option Pagination,
       0 ≤ relEffOffset pag ∧ 0 ≤ relEffLimit pag ∧ relEffLimit pag ≤ 1000) ∧
    relEffLimit none = 100 ∧
    (∀ o l : Int, relEffOffset (some ⟨some o, some l⟩) = max o 0 ∧
       relEffLimit (some ⟨some o, some l⟩) = min (max l 0) 1000) ∧
    (∀ o : Option Int, rootEffOffset (some ⟨o, none⟩) = o.getD 0) ∧
    (∀ o l, l ≠ 0 → rootEffLimit (some ⟨o, some l⟩) = min l 1000) ∧
    rootEffLimit none = 100 ∧
    (∀ o, rootEffLimit (some ⟨o, some 0⟩) = 100) := by
  refine ⟨?_, rfl, ?_, ?_, ?_, rfl, ?_⟩
  · intro pag
    refine ⟨le_max_right _ _, ?_, ?_⟩
    · unfold relEffLimit
      cases pag.bind Pagination.limit with
      | none => norm_num
      | some l => simp only [le_min_iff]; omega
    · unfold relEffLimit
      cases pag.bind Pagination.limit with
      | none => norm_num
      | some l => exact min_le_right _ _
  · intro o l
    constructor <;> rfl
  · intro o
    rfl
  · intro o l hl
    have h0 : (l == (0 : Int)) = false := by simpa using hl
    simp [rootEffLimit, Option.bind, h0]
  · intro o
    rfl

/-- C3, witness: the amended statement at a concrete one-to-many
relationship with `limit: 0` and a failing row source. -/
theorem c3_limit_zero_witness :
    resolveRelationship [("id", Val.int 1)]
        ⟨"id", "Order", "user_id", RelType.oneToMany⟩ none
        (some ⟨some 0, some 0⟩) (Except.error "io") =
      Except.ok (ResolveResult.rows []) :=
  (c3_limit_zero [("id", Val.int 1)] ⟨"id", "Order", "user_id", RelType.oneToMany⟩
    none (some ⟨some 0, some 0⟩) (Except.error "io") rfl rfl (by decide)).1

/-- C7, witness: the amended statement's root-limit clause at `l = -5`. -/
theorem c7_effective_pagination_witness :
    rootEffLimit (some ⟨some 0, some (-5)⟩) = min (-5) 1000 :=
  c7_effective_pagination.2.2.2.2.1 (some 0) (-5) (by decide)

/-- C8, counterexample: a metadata-declared field (`b`) absent from the
sample row is not appended by `inferSchema` — the inferred schema has only
the first-row column `a`. -/
theorem c8_counterexample :
    inferSchema [[("a", Val.str "x")]] (some [⟨"b", some "Int", none⟩]) =
      [⟨"a", some "String", none⟩] ∧
    ∀ fd ∈ inferSchema [[("a", Val.str "x")]] (some [⟨"b", some "Int", none⟩]),
      fd.name ≠ "b" := by
  constructor
  · rfl
  · decide

/-- C8, amended: when sample data exists, `inferSchema` produces exactly
one descriptor per distinct first-row column name, in first-row order
(assuming the row's column names are distinct, as `Object.keys` guarantees
in the source), with a metadata declaration of the same name overriding
type and description and an undeclared (or falsy) type defaulting to
`String`; metadata-declared fields not present in the sample row are
ignored, not appended (declared metadata is used wholesale only for an
empty dataset). -/
theorem c8_infer_schema (r : Row) (rest : List Row)
    (md : Option (List FieldMetadata))
    (hnodup : (r.map Prod.fst).Nodup) :
    ((inferSchema (r :: rest) md).map FieldMetadata.name = r.map Prod.fst) ∧
    ((inferSchema (r :: rest) md).map FieldMetadata.name).Nodup ∧
    (∀ fd ∈ inferSchema (r :: rest) md,
      match metaLookup (md.getD []) fd.name with
      | some m => fd.ftype = some (metaTypeOrString m.ftype) ∧
          fd.description = m.description
      | none => fd.ftype = some "String" ∧ fd.description = none) ∧
    inferSchema ([] : List Row) md = md.getD [] := by
  have key : ∀ cols : List String,
      (cols.map fun c =>
        match metaLookup (md.getD []) c with
        | some m => (⟨c, some (metaTypeOrString m.ftype), m.description⟩ : FieldMetadata)
        | none => ⟨c, some "String", none⟩).map FieldMetadata.name = cols := by
    intro cols
    rw [List.map_map]
    apply List.map_id''
    intro c
    cases h : metaLookup (md.getD []) c <;> simp [Function.comp, h]
  have hname : (inferSchema (r :: rest) md).map FieldMetadata.name = r.map Prod.fst := by
    simpa only [inferSchema] using key (r.map Prod.fst)
  refine ⟨hname, by rw [hname]; exact hnodup, ?_, rfl⟩
  intro fd hfd
  simp only [inferSchema, List.mem_map] at hfd
  obtain ⟨c, _hc, rfl⟩ := hfd
  cases h : metaLookup (md.getD []) c with
  | none => simp [h]
  | some m => simp [h]

/-- C8, witness: the amended statement at a concrete one-row dataset with
an overriding metadata declaration. -/
theorem c8_infer_schema_witness :
    ((inferSchema [[("id", Val.str "1"), ("age", Val.str "7")]]
        (some [⟨"age", some "Int", some "years"⟩])).map FieldMetadata.name =
      ["id", "age"]) := by
  have h := c8_infer_schema [("id", Val.str "1"), ("age", Val.str "7")] []
    (some [⟨"age", some "Int", some "years"⟩]) (by decide)
  exact h.1

/-- C6, counterexample: in the TypeScript revision of `createQueryField`
(`generator.ts:254–318`) there is no try/catch, so a row-source error
during a root query propagates to the caller instead of yielding an empty
Result Envelope. -/
theorem c6_counterexample :
    rootQueryTS (tableQuery []) (Except.error "io failure") "T" [] none none =
      Except.error "io failure" := by
  rfl

/-- C6, amended: row-source errors are recovered locally in the JavaScript
revision of the root-query resolver (which catches on both strategy paths
and returns the empty envelope with `totalCount: 0`) and in nested
relationship filtering (`hasMatchingRelatedRecord` catches and treats the
parent as having no related rows, excluding it); in the TypeScript
revision of the root-query resolver the error propagates to the caller. -/
theorem c6_lookup_failure_recovery :
    (∀ (db : DbQuery) (e : String) (csvName : String)
        (rels : List Relationship) (fil : Option TopFilter) (pag : Option Pagination),
      rootQueryJS db (Except.error e) csvName rels fil pag =
        ⟨[], 0, rootEffOffset pag, rootEffLimit pag⟩) ∧
    (∀ (db : DbQuery) (parent : Row) (rel : Relationship) (rf : RelFilter) (e : String),
      db (sanitizeIdentifier rel.references) (sanitizeIdentifier rel.referenceField)
          (rowGet parent rel.field) = Except.error e →
      hasMatchingRelatedRecord db parent rel rf = false) ∧
    (∀ (db : DbQuery) (data : List Row) (parent : Row) (rel : Relationship)
        (rf : RelFilter) (e : String),
      db (sanitizeIdentifier rel.references) (sanitizeIdentifier rel.referenceField)
          (rowGet parent rel.field) = Except.error e →
      rf ≠ [] →
      parent ∉ applyNestedFilters data
        (some [(getRelationshipFieldName rel, TopVal.rel rf)]) [rel] db) := by
  have hmatch : ∀ (db : DbQuery) (parent : Row) (rel : Relationship)
      (rf : RelFilter) (e : String),
      db (sanitizeIdentifier rel.references) (sanitizeIdentifier rel.referenceField)
          (rowGet parent rel.field) = Except.error e →
      hasMatchingRelatedRecord db parent rel rf = false := by
    intro db parent rel rf e herr
    unfold hasMatchingRelatedRecord
    by_cases hnull : (rowGet parent rel.field == Val.null) = true
    · simp [hnull]
    · simp only [Bool.not_eq_true] at hnull
      simp [hnull, herr]
  refine ⟨?_, hmatch, ?_⟩
  · intro db e csvName rels fil pag
    unfold rootQueryJS
    cases hasRelationshipFilters fil rels <;> simp
  · intro db data parent rel rf e herr hrf hmem
    have hne : ([(getRelationshipFieldName rel, TopVal.rel rf)] : TopFilter).isEmpty = false := rfl
    simp only [applyNestedFilters, hne, Bool.false_eq_true, if_false,
      List.mem_filter, List.all_cons, List.all_nil, Bool.and_true] at hmem
    obtain ⟨-, hpred⟩ := hmem
    have hempty : isEmptyTopVal (TopVal.rel rf) = false := by
      cases rf with
      | nil => exact absurd rfl hrf
      | cons a l => rfl
    rw [hempty] at hpred
    simp only [Bool.false_eq_true, if_false] at hpred
    have hlook : List.lookup (getRelationshipFieldName rel)
        ([(getRelationshipFieldName rel, rel)] :
          List (String × Relationship)) = some rel := by
      simp [List.lookup]
    simp only [List.map_cons, List.map_nil, hlook] at hpred
    rw [show relFilterOf (TopVal.rel rf) = rf from rfl] at hpred
    rw [hmatch db parent rel rf e herr] at hpred
    cases hpred

/-- C6, witness: the amended statement's parts applied at a failing row
source and a concrete parent/relationship. -/
theorem c6_lookup_failure_recovery_witness :
    rootQueryJS (tableQuery []) (Except.error "io") "T" [] none none =
      ⟨[], 0, 0, 100⟩ ∧
    hasMatchingRelatedRecord (fun _ _ _ => Except.error "io")
      [("id", Val.int 1)] ⟨"id", "Order", "user_id", RelType.oneToMany⟩
      [("status", {eq := some (Val.str "completed")})] = false :=
  ⟨c6_lookup_failure_recovery.1 (tableQuery []) "io" "T" [] none none,
   c6_lookup_failure_recovery.2.1 (fun _ _ _ => Except.error "io")
     [("id", Val.int 1)] ⟨"id", "Order", "user_id", RelType.oneToMany⟩
     [("status", {eq := some (Val.str "completed")})] "io" rfl⟩

/-- If the related-record list is empty, `.any` is false anyway, so the
source's explicit emptiness check is absorbed. -/
theorem if_isEmpty_any (l : List Row) (P : Row → Bool) :
    (if l.isEmpty then false else l.any P) = l.any P := by
  cases l <;> simp

/-- C5, counterexample: the claim fails on the empty nested filter.
`applyNestedFilters` (`filters.ts:260–262`) skips any filter entry whose
value has no keys, so `filter: {orders: {}}` imposes no constraint at
all: a parent whose local field value is null (and which has zero related
rows) is retained, contradicting both the claimed iff and the claimed
"always excluded" clause. -/
theorem c5_counterexample :
    applyNestedFilters [[("id", Val.null)]]
        (some [("orders", TopVal.rel [])])
        [⟨"id", "Order", "user_id", RelType.oneToMany⟩]
        (tableQuery []) = [[("id", Val.null)]] ∧
    rowGet [("id", Val.null)] "id" = Val.null := by
  constructor <;> rfl

/-- C5, amended: with a healthy row source and a filter whose single key
is the relationship's derived field name, an empty nested filter value is
skipped (`Object.keys(filterValue).length === 0`), imposing no constraint
— every parent is retained, null local field values included; a
non-empty nested filter retains a parent iff the parent is in the data,
its local field value is non-null, and at least one row of the target
table whose target field equals the parent's local value satisfies the
nested filter expression (existential semantics), so there a parent with
a null local field value is always excluded.  The sanitization hypotheses
record that the relationship's identifiers are plain (GraphQL-legal)
names, on which `sanitizeIdentifier` is the identity. -/
theorem c5_nested_existential (tables : List (String × List Row))
    (data : List Row) (rel : Relationship) (rf : RelFilter) (parent : Row)
    (hsan1 : sanitizeIdentifier rel.references = rel.references)
    (hsan2 : sanitizeIdentifier rel.referenceField = rel.referenceField) :
    (rf = [] → applyNestedFilters data
        (some [(getRelationshipFieldName rel, TopVal.rel rf)]) [rel]
        (tableQuery tables) = data) ∧
    (rf ≠ [] → (parent ∈ applyNestedFilters data
        (some [(getRelationshipFieldName rel, TopVal.rel rf)]) [rel]
        (tableQuery tables) ↔
      parent ∈ data ∧ rowGet parent rel.field ≠ Val.null ∧
        ∃ r ∈ (List.lookup rel.references tables).getD [],
          sqliteEqVal (rowGet r rel.referenceField) (rowGet parent rel.field) = true ∧
          relFilterMatches rf r = true)) := by
  have hne : ([(getRelationshipFieldName rel, TopVal.rel rf)] : TopFilter).isEmpty = false := rfl
  constructor
  · intro hnil
    subst hnil
    simp only [applyNestedFilters, hne, Bool.false_eq_true, if_false,
      List.all_cons, List.all_nil, Bool.and_true,
      show isEmptyTopVal (TopVal.rel []) = true from rfl, if_true]
    exact List.filter_true data
  · intro hrf
    have hempty : isEmptyTopVal (TopVal.rel rf) = false := by
      cases rf with
      | nil => exact absurd rfl hrf
      | cons a l => rfl
    have hlook : List.lookup (getRelationshipFieldName rel)
        ([(getRelationshipFieldName rel, rel)] : List (String × Relationship)) = some rel := by
      simp [List.lookup]
    simp only [applyNestedFilters, hne, Bool.false_eq_true, if_false,
      List.map_cons, List.map_nil, List.mem_filter, List.all_cons, List.all_nil,
      Bool.and_true, hempty, hlook]
    rw [show relFilterOf (TopVal.rel rf) = rf from rfl]
    have hbridge : hasMatchingRelatedRecord (tableQuery tables) parent rel rf = true ↔
        rowGet parent rel.field ≠ Val.null ∧
          ∃ r ∈ (List.lookup rel.references tables).getD [],
            sqliteEqVal (rowGet r rel.referenceField) (rowGet parent rel.field) = true ∧
            relFilterMatches rf r = true := by
      unfold hasMatchingRelatedRecord
      rw [hsan1, hsan2]
      by_cases hnull : rowGet parent rel.field = Val.null
      · simp [hnull]
      · have hbeq : (rowGet parent rel.field == Val.null) = false := by
          simpa using hnull
        simp only [hbeq, Bool.false_eq_true, if_false, tableQuery, if_isEmpty_any,
          List.any_eq_true, List.mem_filter]
        constructor
        · rintro ⟨r, ⟨hrmem, hreq⟩, hrmatch⟩
          exact ⟨hnull, r, hrmem, hreq, hrmatch⟩
        · rintro ⟨-, r, hrmem, hreq, hrmatch⟩
          exact ⟨r, ⟨hrmem, hreq⟩, hrmatch⟩
    rw [hbridge]

/-- C5, witness: the spec's own scenario — users 1 and 2, orders 10
(user 1, completed) and 11 (user 2, pending), filter
`{orders: {status: {eq: "completed"}}}` — retains exactly user 1. -/
theorem c5_nested_existential_witness :
    (([("id", Val.int 1)] : Row) ∈ applyNestedFilters
        [[("id", Val.int 1)], [("id", Val.int 2)]]
        (some [("orders", TopVal.rel [("status", {eq := some (Val.str "completed")})])])
        [⟨"id", "Order", "user_id", RelType.oneToMany⟩]
        (tableQuery [("Order",
          [[("id", Val.int 10), ("user_id", Val.int 1), ("status", Val.str "completed")],
           [("id", Val.int 11), ("user_id", Val.int 2), ("status", Val.str "pending")]])]) ↔
      ([("id", Val.int 1)] : Row) ∈ [[("id", Val.int 1)], [("id", Val.int 2)]] ∧
        rowGet [("id", Val.int 1)] "id" ≠ Val.null ∧
        ∃ r ∈ (List.lookup "Order" [("Order",
            [[("id", Val.int 10), ("user_id", Val.int 1), ("status", Val.str "completed")],
             [("id", Val.int 11), ("user_id", Val.int 2), ("status", Val.str "pending")]])]).getD [],
          sqliteEqVal (rowGet r "user_id") (rowGet [("id", Val.int 1)] "id") = true ∧
          relFilterMatches [("status", {eq := some (Val.str "completed")})] r = true) := by
  have h := (c5_nested_existential
    [("Order",
      [[("id", Val.int 10), ("user_id", Val.int 1), ("status", Val.str "completed")],
       [("id", Val.int 11), ("user_id", Val.int 2), ("status", Val.str "pending")]])]
    [[("id", Val.int 1)], [("id", Val.int 2)]]
    ⟨"id", "Order", "user_id", RelType.oneToMany⟩
    [("status", {eq := some (Val.str "completed")})]
    [("id", Val.int 1)] (by decide) (by decide)).2 (by decide)
  have hn : getRelationshipFieldName ⟨"id", "Order", "user_id", RelType.oneToMany⟩ = "orders" := by
    decide
  rw [hn] at h
  exact h

/-- The character replacement of `sanitizeIdentifier` always yields a safe
character. -/
theorem sanitizeChar_safe (c : Char) :
    isSafeIdentChar (if isSafeIdentChar c then c else '_') = true := by
  by_cases h : isSafeIdentChar c = true
  · rw [if_pos h]
    exact h
  · rw [if_neg h]
    decide

/-- The character replacement fixes safe characters. -/
theorem sanitizeChar_fix (c : Char) (h : isSafeIdentChar c = true) :
    (if isSafeIdentChar c then c else '_') = c := by
  rw [if_pos h]

/-- Unfolding `sanitizeChars` when the replacement map is empty. -/
theorem sanitizeChars_nil (l : List Char)
    (hmap : l.map (fun c => if isSafeIdentChar c then c else '_') = []) :
    sanitizeChars l = [] := by
  unfold sanitizeChars
  rw [hmap]

/-- Unfolding `sanitizeChars` when the replacement map is nonempty. -/
theorem sanitizeChars_cons (l : List Char) (d : Char) (rest : List Char)
    (hmap : l.map (fun c => if isSafeIdentChar c then c else '_') = d :: rest) :
    sanitizeChars l = if d.isDigit then '_' :: d :: rest else d :: rest := by
  unfold sanitizeChars
  rw [hmap]

/-- Every character of a sanitized identifier is in `[a-zA-Z0-9_]`. -/
theorem sanitizeIdentifier_chars (s : String) :
    ∀ c ∈ (sanitizeIdentifier s).data, isSafeIdentChar c = true := by
  intro c hc
  have hdata : (sanitizeIdentifier s).data = sanitizeChars s.data := rfl
  rw [hdata] at hc
  rcases hmap : s.data.map (fun c => if isSafeIdentChar c then c else '_') with _ | ⟨d, rest⟩
  · rw [sanitizeChars_nil s.data hmap] at hc
    cases hc
  · have hmem : ∀ x ∈ d :: rest, isSafeIdentChar x = true := by
      rw [← hmap]
      intro x hx
      obtain ⟨y, -, rfl⟩ := List.mem_map.mp hx
      exact sanitizeChar_safe y
    rw [sanitizeChars_cons s.data d rest hmap] at hc
    by_cases hd : d.isDigit = true
    · rw [if_pos hd] at hc
      rw [List.mem_cons] at hc
      rcases hc with rfl | hc
      · decide
      · exact hmem c hc
    · rw [if_neg hd] at hc
      exact hmem c hc

/-- A sanitized identifier never starts with a digit. -/
theorem sanitizeIdentifier_head (s : String) (c : Char)
    (h : (sanitizeIdentifier s).data.head? = some c) : c.isDigit = false := by
  have hdata : (sanitizeIdentifier s).data = sanitizeChars s.data := rfl
  rw [hdata] at h
  rcases hmap : s.data.map (fun c => if isSafeIdentChar c then c else '_') with _ | ⟨d, rest⟩
  · rw [sanitizeChars_nil s.data hmap] at h
    cases h
  · rw [sanitizeChars_cons s.data d rest hmap] at h
    by_cases hd : d.isDigit = true
    · rw [if_pos hd] at h
      cases h
      rfl
    · rw [if_neg hd] at h
      cases h
      simpa using hd

/-- An identifier that is already made of safe characters and does not
start with a digit passes through `sanitizeIdentifier` unchanged. -/
theorem sanitizeIdentifier_fixed (t : String)
    (hchars : ∀ c ∈ t.data, isSafeIdentChar c = true)
    (hhead : ∀ c, t.data.head? = some c → c.isDigit = false) :
    sanitizeIdentifier t = t := by
  have hmapid : t.data.map (fun c => if isSafeIdentChar c then c else '_') = t.data := by
    conv_rhs => rw [← List.map_id t.data]
    exact List.map_congr_left fun c hc => sanitizeChar_fix c (hchars c hc)
  have hbody : sanitizeChars t.data = t.data := by
    cases ht : t.data with
    | nil => rfl
    | cons c rest =>
      have hc : c.isDigit = false := hhead c (by rw [ht]; rfl)
      rw [ht] at hmapid
      rw [sanitizeChars_cons (c :: rest) c rest hmapid,
        if_neg (by rw [hc]; exact Bool.false_ne_true)]
  rw [sanitizeIdentifier, hbody]

/-- Idempotence of `sanitizeIdentifier`. -/
theorem sanitizeIdentifier_idem (s : String) :
    sanitizeIdentifier (sanitizeIdentifier s) = sanitizeIdentifier s :=
  sanitizeIdentifier_fixed (sanitizeIdentifier s)
    (sanitizeIdentifier_chars s) (sanitizeIdentifier_head s)

/-- Pre-sanitizing the filter keys does not change the generated `WHERE`
clause text: the builder sanitizes them itself. -/
theorem buildWhereClauseSql_sanitized (fs : FilterObject) :
    buildWhereClauseSql (fs.map fun p => (sanitizeIdentifier p.1, p.2)) =
      buildWhereClauseSql fs := by
  have hempty : (fs.map fun p => (sanitizeIdentifier p.1, p.2)).isEmpty = fs.isEmpty := by
    cases fs <;> rfl
  have hmaps : ∀ l : FilterObject,
      (l.map fun p => (sanitizeIdentifier p.1, p.2)).filterMap (fun p =>
        let cs := condStrings (sanitizeIdentifier p.1) p.2
        if cs.isEmpty then none
        else some ("(" ++ String.intercalate " AND " cs ++ ")")) =
      l.filterMap (fun p =>
        let cs := condStrings (sanitizeIdentifier p.1) p.2
        if cs.isEmpty then none
        else some ("(" ++ String.intercalate " AND " cs ++ ")")) := by
    intro l
    induction l with
    | nil => rfl
    | cons hd tl ih =>
      simp only [List.map_cons, List.filterMap_cons, sanitizeIdentifier_idem, ih]
  unfold buildWhereClauseSql
  rw [hempty, hmaps]

/-- C10: `sanitizeIdentifier` outputs only ASCII letters, digits and
underscores, never starting with a digit; and the SQL text generators pass
every table and field identifier through `sanitizeIdentifier` first —
equivalently, pre-sanitizing all identifier inputs leaves the generated
SQL text unchanged (by idempotence of the sanitizer). -/
theorem c10_sanitized_identifiers :
    (∀ s : String, ∀ c ∈ (sanitizeIdentifier s).data, isSafeIdentChar c = true) ∧
    (∀ (s : String) (c : Char),
      (sanitizeIdentifier s).data.head? = some c → c.isDigit = false) ∧
    (∀ (t : String) (fil : Option FilterObject) (pag : Option SQLPagination)
        (fields : Option (List String)),
      buildSelectQuerySql t fil pag fields =
        buildSelectQuerySql (sanitizeIdentifier t)
          (fil.map fun fs => fs.map fun p => (sanitizeIdentifier p.1, p.2)) pag
          (fields.map fun fs => fs.map sanitizeIdentifier)) ∧
    (∀ (a b c d : String) (many : Bool),
      buildRelationshipQuerySql a b c d many =
        buildRelationshipQuerySql (sanitizeIdentifier a) (sanitizeIdentifier b)
          (sanitizeIdentifier c) (sanitizeIdentifier d) many) := by
  refine ⟨sanitizeIdentifier_chars, sanitizeIdentifier_head, ?_, ?_⟩
  · intro t fil pag fields
    unfold buildSelectQuerySql
    rw [sanitizeIdentifier_idem]
    cases fil with
    | none =>
      cases fields with
      | none => rfl
      | some fs =>
        have hfe : (fs.map sanitizeIdentifier).isEmpty = fs.isEmpty := by
          cases fs <;> rfl
        have hfm : (fs.map sanitizeIdentifier).map sanitizeIdentifier =
            fs.map sanitizeIdentifier := by
          rw [List.map_map]
          exact List.map_congr_left fun x _ => sanitizeIdentifier_idem x
        simp [hfe, hfm]
    | some fsf =>
      cases fields with
      | none =>
        simp [buildWhereClauseSql_sanitized]
      | some fs =>
        have hfe : (fs.map sanitizeIdentifier).isEmpty = fs.isEmpty := by
          cases fs <;> rfl
        have hfm : (fs.map sanitizeIdentifier).map sanitizeIdentifier =
            fs.map sanitizeIdentifier := by
          rw [List.map_map]
          exact List.map_congr_left fun x _ => sanitizeIdentifier_idem x
        simp [hfe, hfm, buildWhereClauseSql_sanitized]
  · intro a b c d many
    unfold buildRelationshipQuerySql
    simp only [sanitizeIdentifier_idem]

/-- C10, witness: the sanitizer facts at the concrete identifier
`"1 weird-name!"`, whose sanitized form starts with the prefixed
underscore. -/
theorem c10_sanitized_identifiers_witness :
    isSafeIdentChar '_' = true ∧ ('_').isDigit = false :=
  ⟨c10_sanitized_identifiers.1 "1 weird-name!" '_' (by decide),
   c10_sanitized_identifiers.2.1 "1 weird-name!" '_' (by decide)⟩

/-! ### C1: equivalence of SQL pushdown and in-memory filtering on the
compatible fragment -/

/-- Fact: `convertFilterValue` is the identity on the modelled universe. -/
theorem convertFilterValue_id (v : Val) : convertFilterValue v = v := by
  cases v <;> rfl

/-- Fact: `List.any` respects pointwise-equal predicates on the members. -/
theorem any_congr_mem (l : List Val) (p q : Val → Bool)
    (h : ∀ a ∈ l, p a = q a) : l.any p = l.any q := by
  induction l with
  | nil => rfl
  | cons x xs ih =>
    simp only [List.any_cons]
    rw [h x (List.mem_cons_self x xs), ih fun a ha => h a (List.mem_cons_of_mem _ ha)]

/-- Fact: `contains` spelled as `any`, with the tested element on the
left of `==` as in the SQL evaluation. -/
theorem contains_eq_any (vs : List Val) (v : Val) :
    vs.contains v = vs.any fun p => v == p := by
  induction vs with
  | nil => rfl
  | cons x xs ih =>
    simp only [List.contains_cons, List.any_cons]
    rw [ih]

/-- On a non-null left operand, SQLite equality agrees with the derived
boolean equality of modelled values. -/
theorem sqliteEqVal_eq_beq (v p : Val) (hv : v ≠ Val.null) :
    sqliteEqVal v p = (v == p) := by
  apply Bool.eq_iff_iff.mpr
  cases v <;> cases p <;> simp_all [sqliteEqVal]

/-- Boolean equality of wrapped integers is integer boolean equality. -/
theorem valInt_beq (a b : Int) : (Val.int a == Val.int b) = (a == b) := by
  apply Bool.eq_iff_iff.mpr
  simp

/-- JavaScript `isEqual` against `null` is the null test. -/
theorem isEqual_null_right (v : Val) : isEqual v Val.null = (v == Val.null) := by
  cases v <;> rfl

/-- Against a non-null operand, JavaScript `isEqual` agrees with SQLite
equality. -/
theorem isEqual_eq_sqliteEqVal (v c : Val) (hc : c ≠ Val.null) :
    isEqual v c = sqliteEqVal v c := by
  apply Bool.eq_iff_iff.mpr
  cases v <;> cases c <;> simp_all [isEqual, sqliteEqVal]

/-- The `eq` segment of `buildFieldConditions` evaluates to the in-memory
`eq` check. -/
theorem seg_eq_all (row : Row) (f : String) (o : Option Val) :
    (condsEq f o).all (evalCond row) = checkEq (rowGet row f) o := by
  cases o with
  | none => rfl
  | some c =>
    cases c with
    | null => simp [condsEq, checkEq, evalCond, isEqual_null_right]
    | int b =>
      simp only [condsEq, checkEq, List.all_cons, List.all_nil, Bool.and_true,
        evalCond, convertFilterValue, sqliteCmp]
      exact (isEqual_eq_sqliteEqVal _ _ (by intro h; cases h)).symm
    | str s =>
      simp only [condsEq, checkEq, List.all_cons, List.all_nil, Bool.and_true,
        evalCond, convertFilterValue, sqliteCmp]
      exact (isEqual_eq_sqliteEqVal _ _ (by intro h; cases h)).symm

/-- The `ne` segment, under the compatibility hypothesis (non-null stored
value when the operand is non-null). -/
theorem seg_ne_all (row : Row) (f : String) (o : Option Val)
    (h : neCompat (rowGet row f) o = true) :
    (condsNe f o).all (evalCond row) = checkNe (rowGet row f) o := by
  cases o with
  | none => rfl
  | some c =>
    cases c with
    | null => simp [condsNe, checkNe, evalCond, isEqual_null_right]
    | int b =>
      have h2 : (rowGet row f == Val.null) = false := by
        have h3 : (!(rowGet row f == Val.null)) = true := h
        simpa using h3
      simp only [condsNe, checkNe, List.all_cons, List.all_nil, Bool.and_true,
        evalCond, convertFilterValue, sqliteCmp, h2, Bool.false_or]
      rw [isEqual_eq_sqliteEqVal _ _ (by intro hh; cases hh)]
      simp [sqliteEqVal]
    | str sa =>
      have h2 : (rowGet row f == Val.null) = false := by
        have h3 : (!(rowGet row f == Val.null)) = true := h
        simpa using h3
      simp only [condsNe, checkNe, List.all_cons, List.all_nil, Bool.and_true,
        evalCond, convertFilterValue, sqliteCmp, h2, Bool.false_or]
      rw [isEqual_eq_sqliteEqVal _ _ (by intro hh; cases hh)]
      simp [sqliteEqVal]

/-- The `gt` segment, for integer operand pairs. -/
theorem seg_gt_all (row : Row) (f : String) (o : Option Val)
    (h : cmpCompat (rowGet row f) o = true) :
    (condsCmp CmpOp.gtOp f o).all (evalCond row) = checkGt (rowGet row f) o := by
  cases o with
  | none => rfl
  | some c =>
    have h2 : intPairB (rowGet row f) c = true := h
    simp only [condsCmp, checkGt, List.all_cons, List.all_nil, Bool.and_true,
      evalCond, sqliteCmp]
    rcases hv : rowGet row f with _ | a | sa <;> rw [hv] at h2 <;> cases c <;>
      simp only [intPairB] at h2 <;>
      first
        | exact absurd h2 (by decide)
        | simp [convertFilterValue, sqliteLtVal, isGreaterThan, jsLtVal, jsToNumber]

/-- The `gte` segment, for integer operand pairs. -/
theorem seg_gte_all (row : Row) (f : String) (o : Option Val)
    (h : cmpCompat (rowGet row f) o = true) :
    (condsCmp CmpOp.gteOp f o).all (evalCond row) = checkGte (rowGet row f) o := by
  cases o with
  | none => rfl
  | some c =>
    have h2 : intPairB (rowGet row f) c = true := h
    simp only [condsCmp, checkGte, List.all_cons, List.all_nil, Bool.and_true,
      evalCond, sqliteCmp]
    rcases hv : rowGet row f with _ | a | sa <;> rw [hv] at h2 <;> cases c <;>
      simp only [intPairB] at h2 <;>
      first
        | exact absurd h2 (by decide)
        | simp [convertFilterValue, sqliteLtVal, sqliteEqVal, valInt_beq,
            isGreaterThanOrEqual, isEqual, isGreaterThan, jsLtVal, jsToNumber]

/-- The `lt` segment, for integer operand pairs. -/
theorem seg_lt_all (row : Row) (f : String) (o : Option Val)
    (h : cmpCompat (rowGet row f) o = true) :
    (condsCmp CmpOp.ltOp f o).all (evalCond row) = checkLt (rowGet row f) o := by
  cases o with
  | none => rfl
  | some c =>
    have h2 : intPairB (rowGet row f) c = true := h
    simp only [condsCmp, checkLt, List.all_cons, List.all_nil, Bool.and_true,
      evalCond, sqliteCmp]
    rcases hv : rowGet row f with _ | a | sa <;> rw [hv] at h2 <;> cases c <;>
      simp only [intPairB] at h2 <;>
      first
        | exact absurd h2 (by decide)
        | simp [convertFilterValue, sqliteLtVal, isLessThan, jsLtVal, jsToNumber]

/-- The `lte` segment, for integer operand pairs. -/
theorem seg_lte_all (row : Row) (f : String) (o : Option Val)
    (h : cmpCompat (rowGet row f) o = true) :
    (condsCmp CmpOp.lteOp f o).all (evalCond row) = checkLte (rowGet row f) o := by
  cases o with
  | none => rfl
  | some c =>
    have h2 : intPairB (rowGet row f) c = true := h
    simp only [condsCmp, checkLte, List.all_cons, List.all_nil, Bool.and_true,
      evalCond, sqliteCmp]
    rcases hv : rowGet row f with _ | a | sa <;> rw [hv] at h2 <;> cases c <;>
      simp only [intPairB] at h2 <;>
      first
        | exact absurd h2 (by decide)
        | simp [convertFilterValue, sqliteLtVal, sqliteEqVal, valInt_beq,
            isLessThanOrEqual, isEqual, isLessThan, jsLtVal, jsToNumber]

/-- The `in` segment, under the compatibility hypothesis (no null element
matched against a null value). -/
theorem seg_in_all (row : Row) (f : String) (o : Option (List Val))
    (h : inCompat (rowGet row f) o = true) :
    (condsIn f o).all (evalCond row) = checkIn (rowGet row f) o := by
  cases o with
  | none => rfl
  | some vs =>
    cases vs with
    | nil =>
      simp only [condsIn, checkIn, List.all_cons, List.all_nil, Bool.and_true,
        evalCond]
      cases rowGet row f <;> rfl
    | cons x xs =>
      have h2 : (!(rowGet row f == Val.null) || !((x :: xs).contains Val.null)) = true := h
      have hconv : (x :: xs).map convertFilterValue = x :: xs := by
        conv_rhs => rw [← List.map_id (x :: xs)]
        exact List.map_congr_left fun y _ => convertFilterValue_id y
      simp only [condsIn, checkIn, List.all_cons, List.all_nil, Bool.and_true,
        evalCond, hconv]
      rcases hv : rowGet row f with _ | a | sa
      · rw [hv] at h2
        have h3 : (!(Val.null == Val.null) || !((x :: xs).contains Val.null)) = true := h2
        have hnull : (x :: xs).contains Val.null = false := by
          simpa using h3
        rw [if_pos (by decide),
          show isInArray Val.null (x :: xs) = (x :: xs).contains Val.null from rfl, hnull]
      · simp only [isInArray]
        rw [if_neg (by simp)]
        rw [contains_eq_any]
        exact any_congr_mem (x :: xs) _ _ fun p _hp =>
          sqliteEqVal_eq_beq (Val.int a) p (by intro hh; cases hh)
      · simp only [isInArray]
        rw [if_neg (by simp)]
        rw [contains_eq_any]
        exact any_congr_mem (x :: xs) _ _ fun p _hp =>
          sqliteEqVal_eq_beq (Val.str sa) p (by intro hh; cases hh)

/-- On the compatible fragment, the SQL conditions generated for one field
evaluate (under SQLite semantics) exactly as the in-memory
`matchesFieldFilter` does on the same stored value. -/
theorem buildFieldConditions_eval (row : Row) (f : String) (ff : FieldFilter)
    (hcomp : compatibleB (rowGet row f) ff = true) :
    (buildFieldConditions f ff).all (evalCond row) =
      matchesFieldFilter (rowGet row f) ff := by
  simp only [compatibleB, Bool.and_eq_true, and_assoc] at hcomp
  obtain ⟨h1, h2, h3, h4, h5, h6, h7, h8, h9⟩ := hcomp
  rw [Option.isNone_iff_eq_none] at h1 h2 h3
  simp only [buildFieldConditions, List.all_append, matchesFieldFilter]
  rw [h1, h2, h3, seg_eq_all row f ff.eq, seg_ne_all row f ff.ne h4,
    seg_gt_all row f ff.gt h5, seg_gte_all row f ff.gte h6,
    seg_lt_all row f ff.lt h7, seg_lte_all row f ff.lte h8,
    seg_in_all row f ff.inArr h9]
  simp [condsContains, condsStartsWith, condsEndsWith,
    checkContains, checkStartsWith, checkEndsWith]

/-- An empty operator set passes every value (every conjunct of
`matchesFieldFilter` is the `none` branch). -/
theorem matchesFieldFilter_of_empty (v : Val) (ff : FieldFilter)
    (h : isEmptyFieldFilter ff = true) : matchesFieldFilter v ff = true := by
  simp only [isEmptyFieldFilter, Bool.and_eq_true, and_assoc] at h
  obtain ⟨e1, e2, e3, e4, e5, e6, e7, e8, e9, e10⟩ := h
  rw [Option.isNone_iff_eq_none] at e1 e2 e3 e4 e5 e6 e7 e8 e9 e10
  simp [matchesFieldFilter, e1, e2, e3, e4, e5, e6, e7, e8, e9, e10,
    checkEq, checkNe, checkGt, checkGte, checkLt, checkLte, checkIn,
    checkContains, checkStartsWith, checkEndsWith]

/-- On the compatible fragment, the generated `WHERE` clause evaluates
per row exactly as the in-memory row predicate of `applyFilters`. -/
theorem evalWhere_eq_all (filters : FilterObject) (row : Row)
    (hsan : ∀ p ∈ filters, sanitizeIdentifier p.1 = p.1)
    (hcomp : ∀ p ∈ filters, compatibleB (rowGet row p.1) p.2 = true) :
    evalWhere filters row = filters.all fun p =>
      if isEmptyFieldFilter p.2 then true
      else matchesFieldFilter (rowGet row p.1) p.2 := by
  induction filters with
  | nil => rfl
  | cons hd tl ih =>
    simp only [evalWhere, buildWhereConds, List.flatMap_cons, List.all_append,
      List.all_cons]
    rw [hsan hd (List.mem_cons_self hd tl),
      buildFieldConditions_eval row hd.1 hd.2 (hcomp hd (List.mem_cons_self hd tl))]
    have hif : (if isEmptyFieldFilter hd.2 then true
        else matchesFieldFilter (rowGet row hd.1) hd.2) =
        matchesFieldFilter (rowGet row hd.1) hd.2 := by
      by_cases he : isEmptyFieldFilter hd.2 = true
      · rw [if_pos he, matchesFieldFilter_of_empty _ _ he]
      · rw [if_neg he]
    rw [hif]
    have ih' := ih (fun p hp => hsan p (List.mem_cons_of_mem _ hp))
      (fun p hp => hcomp p (List.mem_cons_of_mem _ hp))
    simp only [evalWhere, buildWhereConds] at ih'
    rw [ih']

/-- C1, amended: executing the SQL predicate of
`buildSelectQuery`/`buildFieldConditions` (first revision, without
pagination) against the stored rows returns exactly the same row list as
the in-memory `applyFilters`/`matchesFieldFilter`, for every filter
without relationship keys that stays inside the compatible fragment: no
`contains`/`startsWith`/`endsWith`, `ne` with a non-null operand only on
non-null stored values, ordered comparisons only between integers, `in`
lists containing null never matched against a null stored value, and
sanitization-invariant (GraphQL-legal) field names. -/
theorem c1_sql_matches_memory (table : List Row) (filters : FilterObject)
    (hsan : ∀ p ∈ filters, sanitizeIdentifier p.1 = p.1)
    (hcomp : ∀ p ∈ filters, ∀ row ∈ table, compatibleB (rowGet row p.1) p.2 = true) :
    sqlSelectRows table filters = applyFilters table filters := by
  unfold sqlSelectRows applyFilters
  by_cases hemp : filters.isEmpty = true
  · have hnil : filters = [] := List.isEmpty_iff.mp hemp
    subst hnil
    simp [evalWhere, buildWhereConds]
  · rw [if_neg (by simpa using hemp)]
    apply List.filter_congr
    intro row hrow
    exact evalWhere_eq_all filters row hsan
      (fun p hp => hcomp p hp row hrow)

/-- C1, counterexample: on the filter `{F: {ne: 0}}` and a table whose
only row has `F = null`, the SQL path excludes the row (`F != 0` is `NULL`
in three-valued logic) while the in-memory path keeps it (`isEqual(null,
0)` is false, so `ne` passes) — the two row sets differ. -/
theorem c1_counterexample :
    sqlSelectRows [[("F", Val.null)]] [("F", {ne := some (Val.int 0)})] ≠
      applyFilters [[("F", Val.null)]] [("F", {ne := some (Val.int 0)})] := by
  decide

/-- C1, witness: the amended equivalence at a concrete integer `gt`
filter over a two-row table. -/
theorem c1_sql_matches_memory_witness :
    (∀ p ∈ ([("age", {gt := some (Val.int 10)})] : FilterObject),
      sanitizeIdentifier p.1 = p.1) ∧
    sqlSelectRows [[("age", Val.int 30)], [("age", Val.int 5)]]
        [("age", {gt := some (Val.int 10)})] =
      applyFilters [[("age", Val.int 30)], [("age", Val.int 5)]]
        [("age", {gt := some (Val.int 10)})] :=
  ⟨by decide, c1_sql_matches_memory
    [[("age", Val.int 30)], [("age", Val.int 5)]]
    [("age", {gt := some (Val.int 10)})] (by decide) (by decide)⟩

end CsvGraphql
